import Mathlib

attribute [local semireducible] Rat.add Rat.sub Rat.mul Rat.inv Rat.ofScientific

/-!
Verification of the TruthBot signal-generation core.

The model is a shallow embedding over exact rationals (ℚ) of:
  * `market_data.MarketDataHandler._update_symbol_data` (the derived-column
    computation, lines 116-117: `hlcc4` and the shifted smoothed average `sma`);
  * `strategy.StrategyAnalyzer.analyze_symbol` and its helpers
    `_find_support_resistance` and `_filter_levels`;
  * the relevant entries of `config.py` (`MA_CONFIG`, `SR_CONFIG`).

Floating-point arithmetic is modelled by exact rational arithmetic, except
that IEEE division-by-zero behaviour is made explicit where the source can
divide by zero: dividing a finite nonzero numerator by zero yields an infinity
and 0 over 0 yields NaN, and in both cases the comparisons `<= zone` and `< zone`
the source performs on the quotient are false for any finite `zone`; this is
encoded by returning `false` from the comparison when the divisor is zero.
Pandas NaN cells (produced by `.shift`) are modelled with `Option ℚ`, and the
source's comparisons against a possibly-NaN value follow IEEE: any order
comparison with NaN is false.
-/

/-- `MA_CONFIG["period"]` from config.py. -/
def MA_period : ℕ := 50

/-- `MA_CONFIG["shift"]` from config.py. -/
def MA_shift : ℕ := 115

/-- `SR_CONFIG["zone_size_pct"]` from config.py (0.005). -/
def SR_zoneSizePct : ℚ := 5 / 1000

/-- `SR_CONFIG["min_touch_points"]` from config.py. -/
def SR_minTouchPoints : ℕ := 1

/-- `self.trend_ma_period = 200`, hardcoded in `StrategyAnalyzer.__init__`. -/
def trendMaPeriod : ℕ := 200

/-- `zone_size = 0.002`, the retracement-zone size hardcoded in
`analyze_symbol`. -/
def retracementZoneSize : ℚ := 2 / 1000

/-- The smoothing coefficient used by `pandas.ewm(span=s, adjust=False)`:
`alpha = 2 / (s + 1)`. -/
def ewmAlpha (span : ℕ) : ℚ := 2 / (span + 1)

/-- One step of the recursive EMA with `adjust=False`:
`y = (1 - alpha) * y_prev + alpha * x`. -/
def ewmStep (alpha y x : ℚ) : ℚ := (1 - alpha) * y + alpha * x

/-- `column.ewm(span=span, adjust=False).mean()`: the recursive EMA seeded by
the first sample.  Empty input gives an empty column; otherwise entry `i` is
the EMA through the first `i+1` samples. -/
def ewmMean (span : ℕ) (xs : List ℚ) : List ℚ :=
  match xs with
  | [] => []
  | x :: rest => rest.scanl (ewmStep (ewmAlpha span)) x

/-- `column.shift(k)`: entry `i` of the result is entry `i - k` of the input
when `i ≥ k`, and NaN (here `none`) when `i < k`; the length is unchanged. -/
def shiftColumn (k : ℕ) (xs : List ℚ) : List (Option ℚ) :=
  (List.range xs.length).map fun i =>
    if i < k then none else some (xs.getD (i - k) 0)

/-- `data["hlcc4"] = (data["High"] + data["Low"] + data["Close"] + data["Close"]) / 4`
(market_data.py line 116). -/
def hlcc4Column (high low close : List ℚ) : List ℚ :=
  List.zipWith (fun h lc => (h + lc.1 + lc.2 + lc.2) / 4) high (low.zip close)

/-- The pandas DataFrame handed to the analyzer: the raw OHLC columns that the
strategy reads (`High`, `Low`, `Close`) plus the derived columns `hlcc4` and
`sma` computed by the market-data handler.  `trendMa` is the `trend_ma`
column, `none` when the column is absent (it is added by the analyzer
itself). -/
structure MarketFrame where
  high : List ℚ
  low : List ℚ
  close : List ℚ
  hlcc4 : List ℚ
  sma : List (Option ℚ)
  trendMa : Option (List ℚ) := none
deriving DecidableEq

/-- Lines 116-117 of market_data.py: derive `hlcc4` and
`sma = hlcc4.ewm(span=period, adjust=False).mean().shift(shift)` from the raw
columns. -/
def prepareFrame (period shift : ℕ) (high low close : List ℚ) : MarketFrame :=
  let h4 := hlcc4Column high low close
  { high := high, low := low, close := close, hlcc4 := h4
    sma := shiftColumn shift (ewmMean period h4), trendMa := none }

/-- A support/resistance candidate as built by `_find_support_resistance`:
a dict with keys `type`, `price`, `multiplier`. -/
structure Level where
  type : String
  price : ℚ
  multiplier : ℚ
deriving DecidableEq

/-- A trading signal dict as built in `analyze_symbol`. -/
structure Signal where
  direction : String
  entry : ℚ
  stopLoss : ℚ
  takeProfit : ℚ
  confidence : String
  reason : String
deriving DecidableEq

/-- The symbols treated as forex pairs in `analyze_symbol`. -/
def forexPairs : List String := ["GBP=X", "EUR=X", "USD=X"]

/-- The volatility-scaled level multiplier of `analyze_symbol` lines 47-50:
`max(0.1, min(0.5, volatility / 2))` for forex symbols, else `0.2`.
`volatility` stands for `data["Close"].pct_change().std() * 100`, whose value
the analyzer only ever clamps here; the standard deviation involves a square
root that exact rationals cannot express, so it enters the model as an input
parameter of the analysis. -/
def levelMultiplier (symbol : String) (volatility : ℚ) : ℚ :=
  if symbol ∈ forexPairs then max (1/10) (min (1/2) (volatility / 2)) else 2/10

/-- The support/resistance candidates found at index `i` of the price array
(lines 132-149 of strategy.py): `prices[i]` is a support candidate when it is
strictly below its four neighbours `i-1, i-2, i+1, i+2`, and a resistance
candidate when strictly above all four.  The scan only calls this for
`2 ≤ i ≤ len - 3`, so the `getD` defaults are never used there. -/
def candidatesAt (prices : List ℚ) (mult : ℚ) (i : ℕ) : List Level :=
  let pi := prices.getD i 0
  (if pi < prices.getD (i-1) 0 ∧ pi < prices.getD (i-2) 0 ∧
      pi < prices.getD (i+1) 0 ∧ pi < prices.getD (i+2) 0 then
    [{ type := "support", price := pi, multiplier := mult }] else [])
  ++
  (if prices.getD (i-1) 0 < pi ∧ prices.getD (i-2) 0 < pi ∧
      prices.getD (i+1) 0 < pi ∧ prices.getD (i+2) 0 < pi then
    [{ type := "resistance", price := pi, multiplier := mult }] else [])

/-- The extrema scan of `_find_support_resistance`:
`for i in range(2, len(prices) - 2)`, appending the candidates at each `i`
in order (support before resistance at the same index). -/
def findExtrema (prices : List ℚ) (mult : ℚ) : List Level :=
  (List.range' 2 (prices.length - 4)).flatMap (candidatesAt prices mult)

/-- The touch test of `_filter_levels` line 166:
`abs(price - level["price"]) / level["price"] <= zone`.  When the level price
is zero the float quotient is +inf (or NaN when `price` is also zero), and
either way the `<=` comparison is false. -/
def touchTest (zone price lvlPrice : ℚ) : Bool :=
  if lvlPrice = 0 then false else |price - lvlPrice| / lvlPrice ≤ zone

/-- The touch count of `_filter_levels` lines 164-167: the number of prices in
the scanned array within the tolerance zone of the level price. -/
def touches (zone : ℚ) (prices : List ℚ) (lvlPrice : ℚ) : ℕ :=
  (prices.filter fun price => touchTest zone price lvlPrice).length

/-- `_filter_levels` (strategy.py lines 160-170): keep the levels whose touch
count reaches `min_touch_points`. -/
def filterLevels (minTouch : ℕ) (zone : ℚ) (levels : List Level)
    (prices : List ℚ) : List Level :=
  levels.filter fun lvl => minTouch ≤ touches zone prices lvl.price

/-- `_find_support_resistance`: extrema scan followed by the touch filter,
with the thresholds taken from `SR_CONFIG`. -/
def findSupportResistance (prices : List ℚ) (mult : ℚ) : List Level :=
  filterLevels SR_minTouchPoints SR_zoneSizePct (findExtrema prices mult) prices

/-- The near-level test of `analyze_symbol` line 65:
`abs(latest_price - level["price"]) / latest_price < zone_size`.  When the
latest price is zero the float quotient is +inf or NaN and the `<` comparison
is false. -/
def nearTest (close zone lvlPrice : ℚ) : Bool :=
  if close = 0 then false else |close - lvlPrice| / close < zone

/-- The near-level loop of `analyze_symbol` lines 64-70: the first level in
list order passing the near test (the loop breaks at the first hit), if any. -/
def nearLevel (close zone : ℚ) (levels : List Level) : Option Level :=
  levels.find? fun lvl => nearTest close zone lvl.price

/-- `latest_price >= latest_ma` where the moving average may be NaN
(comparison with NaN is false). -/
def geMa (price : ℚ) (ma : Option ℚ) : Bool :=
  match ma with
  | none => false
  | some m => m ≤ price

/-- `latest_price <= latest_ma` where the moving average may be NaN. -/
def leMa (price : ℚ) (ma : Option ℚ) : Bool :=
  match ma with
  | none => false
  | some m => price ≤ m

/-- `latest_price > latest_ma` where the moving average may be NaN. -/
def gtMa (price : ℚ) (ma : Option ℚ) : Bool :=
  match ma with
  | none => false
  | some m => m < price

/-- `latest_ma > latest_trend_ma` where the moving average may be NaN. -/
def maGt (ma : Option ℚ) (trendMa : ℚ) : Bool :=
  match ma with
  | none => false
  | some m => trendMa < m

/-- The confidence string of the two retracement rules
(`'🔥🔥🔥'` in the source). -/
def confidenceHigh : String := "high"

/-- The confidence string of the continuation rule (`'🔥🔥'` in the source). -/
def confidenceMedium : String := "medium"

/-- The signal-decision block of `analyze_symbol` (strategy.py lines 56-112):
given the latest close, the latest (possibly NaN) lagged average, the latest
trend average, the volatility multiplier and the level found by the
near-level loop, produce the signal dict of lines 75-111 or `None`.  The
source evaluates the three rules in this order inside `if near_level:`; with
no near level, no rule is reached. -/
def generateSignal (latestPrice : ℚ) (latestMa : Option ℚ) (latestTrendMa : ℚ)
    (mult : ℚ) (near : Option Level) : Option Signal :=
  let isUp : Bool := decide (latestTrendMa < latestPrice)
  let isDown : Bool := decide (latestPrice < latestTrendMa)
  match near with
  | none => none
  | some lvl =>
    if isUp && lvl.type == "support" && geMa latestPrice latestMa then
      some { direction := "BUY", entry := latestPrice
             stopLoss := min (lvl.price * (1 - mult))
               ((latestMa.getD 0) * (995/1000))
             takeProfit := latestPrice * (1 + mult * 2)
             confidence := confidenceHigh
             reason := "Bullish retracement at support in uptrend" }
    else if isDown && lvl.type == "resistance" && leMa latestPrice latestMa then
      some { direction := "SELL", entry := latestPrice
             stopLoss := max (lvl.price * (1 + mult))
               ((latestMa.getD 0) * (1005/1000))
             takeProfit := latestPrice * (1 - mult * 2)
             confidence := confidenceHigh
             reason := "Bearish retracement at resistance in downtrend" }
    else if isUp && gtMa latestPrice latestMa && maGt latestMa latestTrendMa then
      some { direction := "BUY", entry := latestPrice
             stopLoss := (latestMa.getD 0) * (995/1000)
             takeProfit := latestPrice * (1 + mult * 2)
             confidence := confidenceMedium
             reason := "Trend continuation after pullback to MA" }
    else none

/-- `StrategyAnalyzer.analyze_symbol` (strategy.py lines 20-123).  Inputs are
the MA configuration the source reads from `MA_CONFIG`, the symbol, the
volatility sample statistic (see `levelMultiplier`), and the prepared frame.
The result pairs the returned signal (`None` becomes `none`) with the state
of the caller's frame after the call: the source assigns
`data["trend_ma"] = data["Close"].ewm(span=200, adjust=False).mean()` into
the frame it was handed, so the frame comes back with that column set
whenever the length guard passes. -/
def analyzeSymbol (period shift : ℕ) (symbol : String) (volatility : ℚ)
    (data : MarketFrame) : Option Signal × MarketFrame :=
  if data.close.length < max period trendMaPeriod + shift then (none, data)
  else
    let trendCol := ewmMean trendMaPeriod data.close
    let latestPrice := (data.close.getLast?).getD 0
    let latestMa : Option ℚ := (data.sma.getLast?).getD none
    let latestTrendMa := (trendCol.getLast?).getD 0
    let mult := levelMultiplier symbol volatility
    let levels := findSupportResistance data.hlcc4 mult
    let near := nearLevel latestPrice retracementZoneSize levels
    (generateSignal latestPrice latestMa latestTrendMa mult near,
     { data with trendMa := some trendCol })

/-- The spec's reading of the lagged average (§4.2/§8): the EMA of the prefix
`xs[0..j]` with smoothing span `span`, seeded by the first sample. -/
def emaOfPrefix (span : ℕ) (xs : List ℚ) (j : ℕ) : ℚ :=
  match xs.take (j + 1) with
  | [] => 0
  | x :: rest => rest.foldl (ewmStep (ewmAlpha span)) x

/-! Concrete inputs used by counterexamples and witnesses.  The frames are
long enough (200 rows) to pass the analyzer's length guard with `period = 2`,
`shift = 0`; the constant prefix keeps the exact EMA values small. -/

/-- A 200-row frame in an uptrend whose latest close (101) is above its
latest lagged average (302/3) which is above its latest trend average
(20102/201), with a constant weighted-price column and hence no support or
resistance candidates at all. -/
def cxFrame : MarketFrame :=
  { high := List.replicate 199 100 ++ [101]
    low := List.replicate 199 100 ++ [101]
    close := List.replicate 199 100 ++ [101]
    hlcc4 := List.replicate 199 100 ++ [101]
    sma := List.replicate 199 (none : Option ℚ) ++ [some (302/3)]
    trendMa := none }

/-- A 200-row frame in an uptrend with one validated support level at 101,
equal to the latest close, and latest lagged average 100: the first decision
rule fires and the analyzer returns a BUY signal. -/
def emitFrame : MarketFrame :=
  { high := List.replicate 200 100
    low := List.replicate 200 100
    close := List.replicate 199 100 ++ [101]
    hlcc4 := List.replicate 150 100 ++ [102, 103, 101, 103, 102] ++
      List.replicate 45 100
    sma := List.replicate 199 (none : Option ℚ) ++ [some 100]
    trendMa := none }

/-- The BUY signal `analyzeSymbol 2 0 "TEST" 0 emitFrame` produces. -/
def emitSig : Signal :=
  { direction := "BUY", entry := 101, stopLoss := 404/5, takeProfit := 707/5
    confidence := "high", reason := "Bullish retracement at support in uptrend" }

/-- A small weighted-price array with two validated levels inside the 0.2%
retracement zone of the close 100: a resistance at 100.15 found first (local
maximum at index 2) and a nearer support at 99.95 found later (local minimum
at index 6). -/
def c3Prices : List ℚ :=
  [100, 100 + 5/100, 100 + 15/100, 100 + 5/100, 100, 100, 100 - 5/100, 100,
   100 + 5/100]

/-- The empty frame (no candles at all). -/
def emptyFrame : MarketFrame :=
  { high := [], low := [], close := [], hlcc4 := [], sma := [], trendMa := none }

/-! General lemmas about the embedding. -/

theorem analyzeSymbol_of_short (period shift : ℕ) (symbol : String)
    (volatility : ℚ) (data : MarketFrame)
    (h : data.close.length < max period trendMaPeriod + shift) :
    analyzeSymbol period shift symbol volatility data = (none, data) := by
  simp only [analyzeSymbol, if_pos h]

theorem analyzeSymbol_of_long (period shift : ℕ) (symbol : String)
    (volatility : ℚ) (data : MarketFrame)
    (h : ¬ data.close.length < max period trendMaPeriod + shift) :
    analyzeSymbol period shift symbol volatility data =
      (generateSignal ((data.close.getLast?).getD 0)
        ((data.sma.getLast?).getD none)
        (((ewmMean trendMaPeriod data.close).getLast?).getD 0)
        (levelMultiplier symbol volatility)
        (nearLevel ((data.close.getLast?).getD 0) retracementZoneSize
          (findSupportResistance data.hlcc4 (levelMultiplier symbol volatility))),
       { data with trendMa := some (ewmMean trendMaPeriod data.close) }) := by
  simp only [analyzeSymbol, if_neg h]

theorem generateSignal_entry (p : ℚ) (ma : Option ℚ) (tma mult : ℚ)
    (near : Option Level) (sig : Signal)
    (h : generateSignal p ma tma mult near = some sig) : sig.entry = p := by
  cases near with
  | none => simp [generateSignal] at h
  | some lvl =>
    simp only [generateSignal] at h
    split at h
    · exact (Option.some.injEq _ _ ▸ h) ▸ rfl
    · split at h
      · exact (Option.some.injEq _ _ ▸ h) ▸ rfl
      · split at h
        · exact (Option.some.injEq _ _ ▸ h) ▸ rfl
        · exact absurd h (by simp)

/-- C7: a series shorter than `max(period, trendSpan) + shift` yields no
signal, the analysis resolving this internally (the analysis function is
total, returns `none`, and leaves the frame untouched). -/
theorem short_series_no_signal (period shift : ℕ) (symbol : String)
    (volatility : ℚ) (data : MarketFrame)
    (h : data.close.length < max period trendMaPeriod + shift) :
    (analyzeSymbol period shift symbol volatility data).1 = none ∧
    (analyzeSymbol period shift symbol volatility data).2 = data := by
  rw [analyzeSymbol_of_short period shift symbol volatility data h]
  exact ⟨rfl, rfl⟩

/-- Witness for C7 at the empty frame with the configured period and shift. -/
theorem short_series_no_signal_witness :
    emptyFrame.close.length < max MA_period trendMaPeriod + MA_shift ∧
    (analyzeSymbol MA_period MA_shift "QQQ" 0 emptyFrame).1 = none :=
  ⟨by decide,
   (short_series_no_signal MA_period MA_shift "QQQ" 0 emptyFrame (by decide)).1⟩

/-- C2 counterexample: with `period = 2`, `shift = 1`, the lagged average at
index 1 is already defined (it equals 100) although `1 < period + shift = 3`;
the claim says it must be undefined there. -/
theorem sma_defined_below_period_plus_shift :
    (1 : ℕ) < 2 + 1 ∧
    (prepareFrame 2 1 [100, 101, 102] [100, 101, 102] [100, 101, 102]).sma.getD
      1 none = some 100 := by decide

/-- C2 amended: `laggedAverage[i]` is defined exactly when `i ≥ shift` (the
EMA with `adjust=False` is defined from the very first bar, so only the
shift, not the period, delays definedness). -/
theorem shiftColumn_get (k : ℕ) (xs : List ℚ) (i : ℕ)
    (hi : i < (shiftColumn k xs).length) :
    (shiftColumn k xs).get ⟨i, hi⟩ =
      if i < k then none else some (xs.getD (i - k) 0) := by
  simp [shiftColumn]

theorem sma_defined_iff_ge_shift (period shift : ℕ) (high low close : List ℚ)
    (i : ℕ) (hi : i < (prepareFrame period shift high low close).sma.length) :
    (prepareFrame period shift high low close).sma.get ⟨i, hi⟩ = none ↔
      i < shift := by
  have h2 : (prepareFrame period shift high low close).sma =
      shiftColumn shift (ewmMean period (hlcc4Column high low close)) := rfl
  revert hi
  rw [h2]
  intro hi
  rw [shiftColumn_get]
  split
  · simp_all
  · simp_all

/-- Witness for C2 amended at `period = 2`, `shift = 1`, index 0. -/
theorem sma_defined_iff_ge_shift_witness :
    (prepareFrame 2 1 [100, 101, 102] [100, 101, 102] [100, 101, 102]).sma.get
      ⟨0, by decide⟩ = none ↔ 0 < 1 :=
  sma_defined_iff_ge_shift 2 1 [100, 101, 102] [100, 101, 102] [100, 101, 102]
    0 (by decide)

/-- C3 counterexample: on `c3Prices` with close 100 both validated levels are
inside the retracement zone, the support at 99.95 is strictly nearer, yet
the near-level loop returns the resistance at 100.15 because it was found
first. -/
theorem near_level_not_nearest :
    nearLevel 100 retracementZoneSize (findSupportResistance c3Prices (1/5)) =
      some { type := "resistance", price := 2003/20, multiplier := 1/5 } ∧
    { type := "support", price := 1999/20, multiplier := (1:ℚ)/5 } ∈
      findSupportResistance c3Prices (1/5) ∧
    nearTest 100 retracementZoneSize (1999/20) = true ∧
    |(100 : ℚ) - 1999/20| / 100 < |(100 : ℚ) - 2003/20| / 100 := by decide

/-- C3 amended: the level used by the signal decision is the first level in
detection order whose relative distance to the latest close is inside the
zone; every level detected before it is outside the zone (it need not be the
nearest). -/
theorem near_level_first_in_zone (close zone : ℚ) (levels : List Level)
    (lvl : Level) (h : nearLevel close zone levels = some lvl) :
    lvl ∈ levels ∧ nearTest close zone lvl.price = true ∧
    ∃ pre post, levels = pre ++ lvl :: post ∧
      ∀ l ∈ pre, nearTest close zone l.price = false := by
  induction levels with
  | nil => simp [nearLevel] at h
  | cons a t ih =>
    simp only [nearLevel, List.find?] at h
    by_cases ha : nearTest close zone a.price = true
    · simp only [ha, cond_true] at h
      obtain rfl : a = lvl := by injection h
      exact ⟨List.mem_cons_self a t, ha, [], t, rfl, by simp⟩
    · rw [Bool.not_eq_true] at ha
      simp only [ha, cond_false] at h
      obtain ⟨hm, ht, pre, post, heq, hpre⟩ := ih h
      refine ⟨List.mem_cons_of_mem a hm, ht, a :: pre, post, by rw [heq]; rfl, ?_⟩
      intro l hl
      rcases List.mem_cons.mp hl with rfl | hl
      · exact ha
      · exact hpre l hl

/-- Witness for C3 amended on the `c3Prices` scenario. -/
theorem near_level_first_in_zone_witness :
    ({ type := "resistance", price := 2003/20, multiplier := (1:ℚ)/5 } : Level) ∈
      findSupportResistance c3Prices (1/5) ∧
    nearTest 100 retracementZoneSize ((2003:ℚ)/20) = true ∧
    ∃ pre post, findSupportResistance c3Prices (1/5) =
        pre ++ ({ type := "resistance", price := 2003/20, multiplier := (1:ℚ)/5 } : Level) :: post ∧
      ∀ l ∈ pre, nearTest 100 retracementZoneSize l.price = false :=
  near_level_first_in_zone 100 retracementZoneSize
    (findSupportResistance c3Prices (1/5))
    { type := "resistance", price := 2003/20, multiplier := 1/5 } (by decide)

theorem touchTest_zero_price (zone price : ℚ) : touchTest zone price 0 = false := by
  simp [touchTest]

theorem touches_zero_price (zone : ℚ) (prices : List ℚ) :
    touches zone prices 0 = 0 := by
  simp [touches, touchTest_zero_price]

/-- C8: a candidate level with price 0 is never retained by the touch filter
(its relative-distance test fails for every price, as the float quotient is
infinite or NaN), no failure occurs (the filter is a total function), and the
surviving levels are exactly those of filtering the nonzero-price candidates
alone. -/
theorem zero_price_levels_skipped (minTouch : ℕ) (zone : ℚ)
    (levels : List Level) (prices : List ℚ) (hmt : 1 ≤ minTouch) :
    (∀ lvl ∈ filterLevels minTouch zone levels prices, lvl.price ≠ 0) ∧
    filterLevels minTouch zone levels prices =
      filterLevels minTouch zone (levels.filter fun lvl => lvl.price != 0)
        prices := by
  constructor
  · intro lvl hm hz
    rcases List.mem_filter.mp hm with ⟨-, hkeep⟩
    rw [hz, touches_zero_price] at hkeep
    simp at hkeep
    omega
  · rw [filterLevels, filterLevels, List.filter_filter]
    apply List.filter_congr
    intro x hx
    by_cases hz : x.price = 0
    · have hdrop : ¬ minTouch ≤ touches zone prices x.price := by
        rw [hz, touches_zero_price]; omega
      simp [hdrop]
    · have hq : (x.price != 0) = true := by simpa using hz
      simp [hq]

/-- Witness for C8: a zero-price support candidate among the `c3Prices`
levels is dropped while the nonzero candidates filter exactly as without
it. -/
theorem zero_price_levels_skipped_witness :
    (∀ lvl ∈ filterLevels 1 SR_zoneSizePct
        ({ type := "support", price := 0, multiplier := (1:ℚ)/5 } ::
          findExtrema c3Prices (1/5)) c3Prices, lvl.price ≠ 0) ∧
    filterLevels 1 SR_zoneSizePct
        ({ type := "support", price := 0, multiplier := (1:ℚ)/5 } ::
          findExtrema c3Prices (1/5)) c3Prices =
      filterLevels 1 SR_zoneSizePct
        ((({ type := "support", price := 0, multiplier := (1:ℚ)/5 } :
            Level) :: findExtrema c3Prices (1/5)).filter
          fun lvl => lvl.price != 0) c3Prices :=
  zero_price_levels_skipped 1 SR_zoneSizePct
    ({ type := "support", price := 0, multiplier := (1:ℚ)/5 } ::
      findExtrema c3Prices (1/5)) c3Prices (by decide)

theorem extrema_price_mem (prices : List ℚ) (mult : ℚ) (lvl : Level)
    (h : lvl ∈ findExtrema prices mult) : lvl.price ∈ prices := by
  simp only [findExtrema, List.mem_flatMap] at h
  obtain ⟨i, hi, hmem⟩ := h
  obtain ⟨j, hj, hij⟩ := List.mem_range'.mp hi
  have hilt : i < prices.length := by omega
  have hprice : lvl.price = prices.getD i 0 := by
    simp only [candidatesAt] at hmem
    rcases List.mem_append.mp hmem with hm | hm <;>
      · split at hm
        · rw [List.mem_singleton.mp hm]
        · simp at hm
  rw [hprice, List.getD_eq_getElem _ _ hilt]
  exact List.getElem_mem hilt

/-- C10: every extrema candidate whose price is positive touches itself, so
its touch count is at least 1; consequently with `minTouchPoints = 1` (the
configured value, `SR_minTouchPoints`) the validator retains every candidate
whenever all candidate prices are positive. -/
theorem positive_candidates_touch_and_retained (prices : List ℚ) (mult : ℚ) :
    (∀ lvl ∈ findExtrema prices mult, 0 < lvl.price →
      1 ≤ touches SR_zoneSizePct prices lvl.price) ∧
    ((∀ lvl ∈ findExtrema prices mult, 0 < lvl.price) →
      findSupportResistance prices mult = findExtrema prices mult) := by
  have key : ∀ lvl ∈ findExtrema prices mult, 0 < lvl.price →
      1 ≤ touches SR_zoneSizePct prices lvl.price := by
    intro lvl hm hp
    have hmem := extrema_price_mem prices mult lvl hm
    have htest : touchTest SR_zoneSizePct lvl.price lvl.price = true := by
      rw [touchTest, if_neg hp.ne']
      simp only [sub_self, abs_zero, zero_div, decide_eq_true_eq]
      norm_num [SR_zoneSizePct]
    have hmf : lvl.price ∈
        prices.filter (fun price => touchTest SR_zoneSizePct price lvl.price) :=
      List.mem_filter.mpr ⟨hmem, htest⟩
    have hlen : 0 < (prices.filter
        (fun price => touchTest SR_zoneSizePct price lvl.price)).length :=
      List.length_pos.mpr (List.ne_nil_of_mem hmf)
    exact hlen
  refine ⟨key, fun hall => ?_⟩
  rw [findSupportResistance, filterLevels]
  apply List.filter_eq_self.mpr
  intro lvl hm
  simpa [SR_minTouchPoints] using key lvl hm (hall lvl hm)

/-- Witness for C10 on the `c3Prices` candidates, all of positive price. -/
theorem positive_candidates_touch_and_retained_witness :
    findSupportResistance c3Prices (1/5) = findExtrema c3Prices (1/5) :=
  (positive_candidates_touch_and_retained c3Prices (1/5)).2 (by decide)

set_option maxRecDepth 40000 in
/-- C4 counterexample: analysing `cxFrame` hands back a frame different from
the input (the `trend_ma` column has been written into it), so an analysis
call does mutate the input series. -/
theorem analyze_mutates_input_frame :
    (analyzeSymbol 2 0 "TEST" 0 cxFrame).2 ≠ cxFrame := by decide

/-- C4 amended: the only mutation `analyze_symbol` performs on the input
frame is writing the `trend_ma` column (and only when the length guard
passes); the High, Low, Close, hlcc4 and sma columns always come back
unchanged. -/
theorem analyze_preserves_other_columns (period shift : ℕ) (symbol : String)
    (volatility : ℚ) (data : MarketFrame) :
    ((analyzeSymbol period shift symbol volatility data).2.high = data.high ∧
     (analyzeSymbol period shift symbol volatility data).2.low = data.low ∧
     (analyzeSymbol period shift symbol volatility data).2.close = data.close ∧
     (analyzeSymbol period shift symbol volatility data).2.hlcc4 = data.hlcc4 ∧
     (analyzeSymbol period shift symbol volatility data).2.sma = data.sma) ∧
    ((analyzeSymbol period shift symbol volatility data).2 = data ∨
     (analyzeSymbol period shift symbol volatility data).2 =
       { data with trendMa := some (ewmMean trendMaPeriod data.close) }) := by
  by_cases h : data.close.length < max period trendMaPeriod + shift
  · rw [analyzeSymbol_of_short period shift symbol volatility data h]
    exact ⟨⟨rfl, rfl, rfl, rfl, rfl⟩, Or.inl rfl⟩
  · rw [analyzeSymbol_of_long period shift symbol volatility data h]
    exact ⟨⟨rfl, rfl, rfl, rfl, rfl⟩, Or.inr rfl⟩

theorem generateSignal_sides (p : ℚ) (ma : Option ℚ) (tma mult : ℚ)
    (near : Option Level) (sig : Signal) (hp : 0 < p) (hm : 0 < mult)
    (h : generateSignal p ma tma mult near = some sig) :
    (sig.direction = "BUY" ∧ sig.stopLoss < sig.entry ∧
      sig.entry < sig.takeProfit) ∨
    (sig.direction = "SELL" ∧ sig.takeProfit < sig.entry ∧
      sig.entry < sig.stopLoss) := by
  cases near with
  | none => simp [generateSignal] at h
  | some lvl =>
    cases ma with
    | none => simp [generateSignal, geMa, leMa, gtMa, maGt] at h
    | some m =>
      simp only [generateSignal] at h
      split at h
      case isTrue hc =>
        have hmle : m ≤ p := by
          simp only [Bool.and_eq_true, geMa, decide_eq_true_eq] at hc
          exact hc.2
        obtain rfl := Option.some.inj h
        refine Or.inl ⟨rfl, ?_, ?_⟩
        · show min (lvl.price * (1 - mult)) (m * (995/1000)) < p
          calc min (lvl.price * (1 - mult)) (m * (995/1000)) ≤
              m * (995/1000) := min_le_right _ _
            _ < p := by linarith
        · show p < p * (1 + mult * 2)
          nlinarith [mul_pos hm hp]
      case isFalse =>
        split at h
        case isTrue hc =>
          have hple : p ≤ m := by
            simp only [Bool.and_eq_true, leMa, decide_eq_true_eq] at hc
            exact hc.2
          obtain rfl := Option.some.inj h
          refine Or.inr ⟨rfl, ?_, ?_⟩
          · show p * (1 - mult * 2) < p
            nlinarith [mul_pos hm hp]
          · show p < max (lvl.price * (1 + mult)) (m * (1005/1000))
            calc p ≤ m := hple
              _ < m * (1005/1000) := by linarith
              _ ≤ max (lvl.price * (1 + mult)) (m * (1005/1000)) :=
                le_max_right _ _
        case isFalse =>
          split at h
          case isTrue hc =>
            have hlt : m < p := by
              simp only [Bool.and_eq_true, gtMa, decide_eq_true_eq] at hc
              exact hc.1.2
            obtain rfl := Option.some.inj h
            refine Or.inl ⟨rfl, ?_, ?_⟩
            · show m * (995/1000) < p
              linarith
            · show p < p * (1 + mult * 2)
              nlinarith [mul_pos hm hp]
          case isFalse => simp at h

/-- C5: every emitted signal has its stop loss strictly on the opposite side
of the entry price from the take profit: stop < entry < target for BUY and
target < entry < stop for SELL, assuming the closes in the series are
positive and the volatility multiplier is positive. -/
theorem signal_stop_and_target_opposite (period shift : ℕ) (symbol : String)
    (volatility : ℚ) (data : MarketFrame) (sig : Signal)
    (hpos : ∀ x ∈ data.close, 0 < x)
    (hmult : 0 < levelMultiplier symbol volatility)
    (hsig : (analyzeSymbol period shift symbol volatility data).1 = some sig) :
    (sig.direction = "BUY" ∧ sig.stopLoss < sig.entry ∧
      sig.entry < sig.takeProfit) ∨
    (sig.direction = "SELL" ∧ sig.takeProfit < sig.entry ∧
      sig.entry < sig.stopLoss) := by
  by_cases hlen : data.close.length < max period trendMaPeriod + shift
  · rw [analyzeSymbol_of_short period shift symbol volatility data hlen] at hsig
    simp at hsig
  · rw [analyzeSymbol_of_long period shift symbol volatility data hlen] at hsig
    have hne : data.close ≠ [] := by
      intro he
      apply hlen
      rw [he]
      have h200 : (200 : ℕ) ≤ max period trendMaPeriod := le_max_right _ _
      simp only [List.length_nil]
      omega
    have hp : 0 < (data.close.getLast?).getD 0 := by
      rw [List.getLast?_eq_getLast data.close hne]
      exact hpos _ (List.getLast_mem hne)
    exact generateSignal_sides _ _ _ _ _ sig hp hmult hsig

set_option maxRecDepth 40000 in
/-- Witness for C5: the BUY signal emitted on `emitFrame` has
stop 80.8 < entry 101 < target 141.4. -/
theorem signal_stop_and_target_opposite_witness :
    (emitSig.direction = "BUY" ∧ emitSig.stopLoss < emitSig.entry ∧
      emitSig.entry < emitSig.takeProfit) ∨
    (emitSig.direction = "SELL" ∧ emitSig.takeProfit < emitSig.entry ∧
      emitSig.entry < emitSig.stopLoss) :=
  signal_stop_and_target_opposite 2 0 "TEST" 0 emitFrame emitSig
    (by decide) (by decide) (by decide)

/-- C9: every emitted signal, whichever of the three rules fired, has entry
price equal to the latest close of the input series. -/
theorem signal_entry_is_latest_close (period shift : ℕ) (symbol : String)
    (volatility : ℚ) (data : MarketFrame) (sig : Signal)
    (hsig : (analyzeSymbol period shift symbol volatility data).1 = some sig) :
    sig.entry = (data.close.getLast?).getD 0 := by
  by_cases hlen : data.close.length < max period trendMaPeriod + shift
  · rw [analyzeSymbol_of_short period shift symbol volatility data hlen] at hsig
    simp at hsig
  · rw [analyzeSymbol_of_long period shift symbol volatility data hlen] at hsig
    exact generateSignal_entry _ _ _ _ _ sig hsig

set_option maxRecDepth 40000 in
/-- Witness for C9 on `emitFrame`: the emitted BUY has entry 101, the latest
close. -/
theorem signal_entry_is_latest_close_witness :
    emitSig.entry = (emitFrame.close.getLast?).getD 0 :=
  signal_entry_is_latest_close 2 0 "TEST" 0 emitFrame emitSig (by decide)

set_option maxRecDepth 40000 in
/-- C1 counterexample: on `cxFrame` the trend is an uptrend, close 101 is
above the lagged average 302/3 which is above the trend average 20102/201,
and no validated level is inside the retracement zone of the latest close —
yet the analyzer emits no signal at all, not the continuation BUY the claim
requires. -/
theorem continuation_without_near_level_cx :
    ((ewmMean trendMaPeriod cxFrame.close).getLast?).getD 0 <
      (cxFrame.close.getLast?).getD 0 ∧
    (cxFrame.sma.getLast?).getD none = some (302/3) ∧
    (302/3 : ℚ) < (cxFrame.close.getLast?).getD 0 ∧
    ((ewmMean trendMaPeriod cxFrame.close).getLast?).getD 0 < (302/3 : ℚ) ∧
    nearLevel ((cxFrame.close.getLast?).getD 0) retracementZoneSize
      (findSupportResistance cxFrame.hlcc4 (levelMultiplier "TEST" 0)) =
      none ∧
    (analyzeSymbol 2 0 "TEST" 0 cxFrame).1 = none := by decide

/-- C1 amended: in an uptrend with close > laggedAverage > trendAverage but
no validated level inside the retracement zone of the latest close, the
analyzer emits no signal (the continuation rule is only reachable when some
level is inside the zone). -/
theorem no_near_level_no_signal (period shift : ℕ) (symbol : String)
    (volatility : ℚ) (data : MarketFrame) (m : ℚ)
    (hup : ((ewmMean trendMaPeriod data.close).getLast?).getD 0 <
      (data.close.getLast?).getD 0)
    (hma : (data.sma.getLast?).getD none = some m)
    (h1 : m < (data.close.getLast?).getD 0)
    (h2 : ((ewmMean trendMaPeriod data.close).getLast?).getD 0 < m)
    (hnear : nearLevel ((data.close.getLast?).getD 0) retracementZoneSize
      (findSupportResistance data.hlcc4 (levelMultiplier symbol volatility)) =
      none) :
    (analyzeSymbol period shift symbol volatility data).1 = none := by
  by_cases hlen : data.close.length < max period trendMaPeriod + shift
  · rw [analyzeSymbol_of_short period shift symbol volatility data hlen]
  · rw [analyzeSymbol_of_long period shift symbol volatility data hlen]
    show generateSignal _ _ _ _ _ = none
    rw [hnear]
    simp [generateSignal]

set_option maxRecDepth 40000 in
/-- Witness for C1 amended on `cxFrame`. -/
theorem no_near_level_no_signal_witness :
    (analyzeSymbol 2 0 "TEST" 0 cxFrame).1 = none :=
  no_near_level_no_signal 2 0 "TEST" 0 cxFrame (302/3)
    (by decide) (by decide) (by decide) (by decide) (by decide)

theorem shiftColumn_length (k : ℕ) (xs : List ℚ) :
    (shiftColumn k xs).length = xs.length := by
  simp [shiftColumn]

theorem ewmMean_length (span : ℕ) (xs : List ℚ) :
    (ewmMean span xs).length = xs.length := by
  cases xs <;> simp [ewmMean, List.length_scanl]

theorem scanl_getD_eq_foldl_take (f : ℚ → ℚ → ℚ) (l : List ℚ) :
    ∀ (b : ℚ) (j : ℕ), j ≤ l.length →
      (l.scanl f b).getD j 0 = (l.take j).foldl f b := by
  induction l with
  | nil =>
    intro b j h
    have hj : j = 0 := by simpa using h
    subst hj
    simp [List.scanl_nil]
  | cons a t ih =>
    intro b j h
    cases j with
    | zero => simp [List.scanl_cons]
    | succ k =>
      rw [List.scanl_cons]
      show (List.scanl f (f b a) t).getD k 0 = _
      rw [ih (f b a) k (by simpa using h)]
      simp [List.take_succ_cons]

theorem ewmMean_getD_eq_emaOfPrefix (span : ℕ) (xs : List ℚ) (j : ℕ)
    (hj : j < xs.length) :
    (ewmMean span xs).getD j 0 = emaOfPrefix span xs j := by
  cases xs with
  | nil => simp at hj
  | cons x rest =>
    rw [ewmMean, scanl_getD_eq_foldl_take _ rest x j (by simp at hj; omega)]
    rw [emaOfPrefix, List.take_succ_cons]

/-- C6: for every `i` with `shift ≤ i` inside the series, the lagged average
at index `i` equals the recursive EMA (span `period`, alpha `2/(period+1)`,
seeded by the first sample) of the weighted-price prefix `0..i-shift`.  The
model computes with exact rationals, so the equality is exact, in particular
within any relative tolerance. -/
theorem sma_eq_ema_of_prefix (period shift : ℕ) (high low close : List ℚ)
    (i : ℕ) (hs : shift ≤ i)
    (hi : i < (prepareFrame period shift high low close).sma.length) :
    (prepareFrame period shift high low close).sma.get ⟨i, hi⟩ =
      some (emaOfPrefix period (hlcc4Column high low close) (i - shift)) := by
  have h2 : (prepareFrame period shift high low close).sma =
      shiftColumn shift (ewmMean period (hlcc4Column high low close)) := rfl
  revert hi
  rw [h2]
  intro hi
  have hlen : i - shift < (hlcc4Column high low close).length := by
    rw [shiftColumn_length, ewmMean_length] at hi
    omega
  rw [shiftColumn_get, if_neg (by omega),
    ewmMean_getD_eq_emaOfPrefix period _ _ hlen]

/-- Witness for C6 at `period = 2`, `shift = 1`, index 2 of a three-candle
series. -/
theorem sma_eq_ema_of_prefix_witness :
    (prepareFrame 2 1 [100, 101, 102] [100, 101, 102] [100, 101, 102]).sma.get
      ⟨2, by decide⟩ =
      some (emaOfPrefix 2
        (hlcc4Column [100, 101, 102] [100, 101, 102] [100, 101, 102]) 1) :=
  sma_eq_ema_of_prefix 2 1 [100, 101, 102] [100, 101, 102] [100, 101, 102] 2
    (by decide) (by decide)
